import Mathlib

/-!
Verification development for the Tax Regime Selector application (src/app.py).

The heart of the program is the document-to-structured-data extraction
pipeline: `extract_field` (keyword/regex numeric extraction),
`process_document_text` (per-field extraction plus a chain of fallback
estimation rules), and `calculate_extraction_confidence` (fraction of
non-zero fields).  Numeric values are modelled as rationals (`ℚ`); the
Python code works with floats, but every computation the theorems below
touch is exact at this scale.

The four extraction regexes use only literal characters (case-insensitive),
character classes, greedy and lazy stars over a single character class,
greedy optionals, alternation, and one capturing group.  `RE` below is a
regex syntax with exactly these constructs and `reMatch`/`reSearch`
implement Python `re.search` semantics for them: leftmost starting
position wins, and at a given position the backtracking order is
alternation left-first, greedy star longest-first, lazy star
shortest-first, greedy optional present-first.
-/

namespace TaxApp

/-- Regex syntax covering the constructs used by the four patterns of
`extract_field`: empty, a character class, concatenation, alternation,
greedy optional, greedy star over a class, lazy star over a class, and
the (single) capturing group. -/
inductive RE where
  | eps : RE
  | cls : (Char → Bool) → RE
  | cat : RE → RE → RE
  | alt : RE → RE → RE
  | opt : RE → RE
  | starG : (Char → Bool) → RE
  | starL : (Char → Bool) → RE
  | group : RE → RE

/-- Remainders of `s` after a greedy star over class `p` consumes
characters: the star can consume any prefix of the maximal run of
`p`-characters, and greedy backtracking tries the longest consumption
first. -/
def greedyRests (p : Char → Bool) (s : List Char) : List (List Char) :=
  (List.range ((s.takeWhile p).length + 1)).map fun i =>
    s.drop ((s.takeWhile p).length - i)

/-- Remainders of `s` after a lazy star over class `p`: same candidates as
the greedy star but tried shortest consumption first. -/
def lazyRests (p : Char → Bool) (s : List Char) : List (List Char) :=
  (List.range ((s.takeWhile p).length + 1)).map fun i => s.drop i

/-- Backtracking matcher in continuation-passing style.  `cap` is the text
captured so far by the capturing group (`none` if the group has not
matched yet); the continuation receives the remaining input and the
capture.  The order in which alternatives are tried reproduces Python's
backtracking order, so the first `some` produced is the match Python
would produce. -/
def reMatch : RE → List Char → Option (List Char) →
    (List Char → Option (List Char) → Option (List Char)) → Option (List Char)
  | RE.eps, s, cap, k => k s cap
  | RE.cls _, [], _, _ => none
  | RE.cls p, c :: rest, cap, k => if p c then k rest cap else none
  | RE.cat a b, s, cap, k => reMatch a s cap fun s1 cap1 => reMatch b s1 cap1 k
  | RE.alt a b, s, cap, k =>
      match reMatch a s cap k with
      | some r => some r
      | none => reMatch b s cap k
  | RE.opt a, s, cap, k =>
      match reMatch a s cap k with
      | some r => some r
      | none => k s cap
  | RE.starG p, s, cap, k => (greedyRests p s).findSome? fun s1 => k s1 cap
  | RE.starL p, s, cap, k => (lazyRests p s).findSome? fun s1 => k s1 cap
  | RE.group a, s, cap, k =>
      reMatch a s cap fun s1 _ => k s1 (some (s.take (s.length - s1.length)))

/-- All suffixes of `s`, in order of increasing starting position; these
are the candidate starting points `re.search` tries, leftmost first. -/
def allSuffixes : List Char → List (List Char)
  | [] => [[]]
  | c :: cs => (c :: cs) :: allSuffixes cs

/-- Python `re.search pattern text`: try each starting position from the
left; at the first position where the pattern matches, return the text
captured by the capturing group. -/
def reSearch (r : RE) (s : List Char) : Option (List Char) :=
  (allSuffixes s).findSome? fun t => reMatch r t none fun _ cap => some (cap.getD [])

/-- Case-insensitive literal character, as compiled under re.IGNORECASE. -/
def ciChar (c : Char) : RE := RE.cls fun x => x.toLower == c.toLower

/-- A keyword interpolated literally into the pattern (the keywords contain
no regex metacharacters), matched case-insensitively. -/
def kwRE (kw : String) : RE :=
  kw.toList.foldr (fun c r => RE.cat (ciChar c) r) RE.eps

/-- Python regex class \d (restricted to ASCII digits, the only digits the
source texts contain). -/
def digitCls : Char → Bool := fun c => c.isDigit

/-- Python regex class \s (ASCII whitespace). -/
def spaceCls : Char → Bool := fun c =>
  c == ' ' || c == '\t' || c == '\n' || c == '\r' || c == '\x0b' || c == '\x0c'

/-- Python regex `.` without DOTALL: any character except a newline. -/
def anyCls : Char → Bool := fun c => c != '\n'

/-- The capturing group `(\d+[\d,]*\.?\d*)` shared by all four patterns. -/
def numGroup : RE :=
  RE.group (RE.cat (RE.cls digitCls)
    (RE.cat (RE.starG fun c => c.isDigit || c == ',')
      (RE.cat (RE.opt (RE.cls fun c => c == '.')) (RE.starG digitCls))))

/-- The currency marker `(?:Rs\.?|₹)`, matched case-insensitively. -/
def currencyRE : RE :=
  RE.alt (RE.cat (ciChar 'R') (RE.cat (ciChar 's') (RE.opt (RE.cls fun c => c == '.'))))
    (RE.cls fun c => c == '₹')

/-- Pattern 1 ("Standard pattern"): rf"\x7bkw\x7d[^\d]*(\d+[\d,]*\.?\d*)". -/
def pattern1 (kw : String) : RE :=
  RE.cat (kwRE kw) (RE.cat (RE.starG fun c => !c.isDigit) numGroup)

/-- Pattern 2 ("Looser pattern"): rf"\x7bkw\x7d.*?(\d+[\d,]*\.?\d*)". -/
def pattern2 (kw : String) : RE :=
  RE.cat (kwRE kw) (RE.cat (RE.starL anyCls) numGroup)

/-- Pattern 3 ("With currency symbol"):
rf"\x7bkw\x7d.*?(?:Rs\.?|₹)?\s*(\d+[\d,]*\.?\d*)". -/
def pattern3 (kw : String) : RE :=
  RE.cat (kwRE kw)
    (RE.cat (RE.starL anyCls)
      (RE.cat (RE.opt currencyRE) (RE.cat (RE.starG spaceCls) numGroup)))

/-- Pattern 4 ("Currency symbol before value"):
rf"(?:Rs\.?|₹)?\s*(\d+[\d,]*\.?\d*).*?\x7bkw\x7d". -/
def pattern4 (kw : String) : RE :=
  RE.cat (RE.opt currencyRE)
    (RE.cat (RE.starG spaceCls)
      (RE.cat numGroup (RE.cat (RE.starL anyCls) (kwRE kw))))

/-- The four patterns tried for one keyword, in the priority order of the
`patterns` list in `extract_field`. -/
def patternsFor (kw : String) : List RE :=
  [pattern1 kw, pattern2 kw, pattern3 kw, pattern4 kw]

/-- value_str = match.group(1).replace(",", ""). -/
def stripCommas (s : List Char) : List Char := s.filter fun c => c != ','

/-- Digit string to natural number. -/
def digitsToNat (s : List Char) : Nat :=
  s.foldl (fun n c => 10 * n + (c.toNat - 48)) 0

/-- Numerator and denominator of the decimal number a string denotes: a
digit string "I" denotes (I, 1), and "I.F" denotes
(I * 10^|F| + F, 10^|F|).  Any other shape is a ValueError, modelled as
`none`. -/
def pyFloatParts (s : List Char) : Option (Nat × Nat) :=
  match s.span (fun c => c.isDigit) with
  | (intPart, []) => if intPart.isEmpty then none else some (digitsToNat intPart, 1)
  | (intPart, c :: frac) =>
    if c == '.' && frac.all (fun d => d.isDigit) && !(intPart.isEmpty && frac.isEmpty) then
      some (digitsToNat intPart * 10 ^ frac.length + digitsToNat frac, 10 ^ frac.length)
    else none

/-- Python float(s) on the sublanguage reachable from the capturing group
after comma removal: a digit string, optionally followed by a dot and a
digit string; the result is the exact rational value of that decimal,
written with `mkRat` so that it evaluates by kernel reduction. -/
def pyFloat (s : List Char) : Option ℚ :=
  (pyFloatParts s).map fun p => mkRat p.1 p.2

/-- The inner loop of `extract_field`: try each pattern in order; a match
whose cleaned capture fails to parse (ValueError) is treated as no match
and the loop continues. -/
def tryPatterns (t : List Char) : List RE → Option ℚ
  | [] => none
  | p :: ps =>
    match reSearch p t with
    | none => tryPatterns t ps
    | some c =>
      match pyFloat (stripCommas c) with
      | some v => some v
      | none => tryPatterns t ps

/-- The outer loop of `extract_field`: keywords in list order, four
patterns per keyword. -/
def extractFieldAux (t : List Char) : List String → Option ℚ
  | [] => none
  | kw :: kws =>
    match tryPatterns t (patternsFor kw) with
    | some v => some v
    | none => extractFieldAux t kws

/-- src/app.py `extract_field(text, keywords, default=0)`: first
keyword/pattern combination (keyword order, then pattern priority order)
whose capture parses as a number wins; otherwise the default is
returned. -/
def extract_field (text : String) (keywords : List String) (default : ℚ) : ℚ :=
  (extractFieldAux text.toList keywords).getD default

/-- The value the spec describes for one (keyword, pattern) candidate: the
parsed number the pattern captures in the text, if any. -/
def candidateValue (t : List Char) (p : RE) : Option ℚ :=
  (reSearch p t).bind fun c => pyFloat (stripCommas c)

/-- Modelled from the spec's description of `extract_field`: the first
candidate over all keywords, in keyword order, then pattern priority
order, that yields a numeric capture; the default when none does. -/
def firstMatchSpec (text : String) (keywords : List String) (default : ℚ) : ℚ :=
  (((keywords.map patternsFor).flatten).findSome? (candidateValue text.toList)).getD default

/-- The fixed 11-field record built by `process_document_text`, in the
dictionary's insertion order. -/
structure ExtractedRecord where
  basic_salary : ℚ
  hra : ℚ
  special_allowance : ℚ
  bonus : ℚ
  section_80c : ℚ
  section_80d : ℚ
  home_loan_interest : ℚ
  rent_paid : ℚ
  gross_salary : ℚ
  net_salary : ℚ
  tax_deducted : ℚ
deriving DecidableEq, Repr

/-- The canonical keyword table of `process_document_text`, one keyword
list per field, in field order. -/
def fieldKeywordTable : List (List String) :=
  [["Basic Salary", "Basic Pay", "Basic"],
   ["HRA", "House Rent Allowance"],
   ["Special Allowance", "Special"],
   ["Bonus", "Performance Bonus", "Annual Bonus"],
   ["Section 80C", "80C"],
   ["Section 80D", "80D", "Health Insurance"],
   ["Home Loan Interest", "Interest on Housing Loan"],
   ["Rent Paid", "Rent"],
   ["Gross Salary", "Gross"],
   ["Net Salary", "Take Home", "Net Pay"],
   ["TDS", "Tax Deducted", "Income Tax"]]

/-- The "Basic extraction" step of `process_document_text`: one
`extract_field` call per field (default 0). -/
def basicExtraction (text : String) : ExtractedRecord where
  basic_salary := extract_field text ["Basic Salary", "Basic Pay", "Basic"] 0
  hra := extract_field text ["HRA", "House Rent Allowance"] 0
  special_allowance := extract_field text ["Special Allowance", "Special"] 0
  bonus := extract_field text ["Bonus", "Performance Bonus", "Annual Bonus"] 0
  section_80c := extract_field text ["Section 80C", "80C"] 0
  section_80d := extract_field text ["Section 80D", "80D", "Health Insurance"] 0
  home_loan_interest := extract_field text ["Home Loan Interest", "Interest on Housing Loan"] 0
  rent_paid := extract_field text ["Rent Paid", "Rent"] 0
  gross_salary := extract_field text ["Gross Salary", "Gross"] 0
  net_salary := extract_field text ["Net Salary", "Take Home", "Net Pay"] 0
  tax_deducted := extract_field text ["TDS", "Tax Deducted", "Income Tax"] 0

/-- Fallback rule 1: estimate basic salary as 50% of gross when gross is
known and basic is missing. -/
def fallbackBasic (d : ExtractedRecord) : ExtractedRecord :=
  if d.gross_salary > 0 ∧ d.basic_salary = 0 then
    { d with basic_salary := d.gross_salary * 0.5 }
  else d

/-- Fallback rule 2: estimate HRA as 40% of basic when HRA is missing and
basic is known. -/
def fallbackHra (d : ExtractedRecord) : ExtractedRecord :=
  if d.hra = 0 ∧ d.basic_salary > 0 then
    { d with hra := d.basic_salary * 0.4 }
  else d

/-- Fallback rule 3: estimate special allowance as the remainder of gross
after basic and HRA, floored at 0. -/
def fallbackSpecial (d : ExtractedRecord) : ExtractedRecord :=
  if d.special_allowance = 0 ∧ d.gross_salary > 0 ∧ d.basic_salary > 0 ∧ d.hra > 0 then
    { d with special_allowance := max 0 (d.gross_salary - d.basic_salary - d.hra) }
  else d

/-- src/app.py `process_document_text(text)`: per-field extraction, then
the three fallback rules applied in order, each reading the record as
left by the previous one. -/
def process_document_text (text : String) : ExtractedRecord :=
  fallbackSpecial (fallbackHra (fallbackBasic (basicExtraction text)))

/-- The record's values in dictionary order, as iterated by
`calculate_extraction_confidence`. -/
def recordValues (d : ExtractedRecord) : List ℚ :=
  [d.basic_salary, d.hra, d.special_allowance, d.bonus, d.section_80c,
   d.section_80d, d.home_loan_interest, d.rent_paid, d.gross_salary,
   d.net_salary, d.tax_deducted]

/-- src/app.py `calculate_extraction_confidence(extracted_data)`: number
of strictly positive values over the number of fields, 0 for an empty
record. -/
def calculate_extraction_confidence (vals : List ℚ) : ℚ :=
  let nonZeroFields := vals.countP fun v => 0 < v
  let totalFields := vals.length
  if totalFields > 0 then (nonZeroFields : ℚ) / (totalFields : ℚ) else 0

/-- Income side of `calculate_tax`'s first argument. -/
structure IncomeDetails where
  basic_salary : ℚ
  hra : ℚ
  special_allowance : ℚ
  bonus : ℚ
deriving DecidableEq, Repr

/-- Deduction side of `calculate_tax`'s second argument. -/
structure Deductions where
  section_80c : ℚ
  section_80d : ℚ
  home_loan_interest : ℚ
  rent_paid : ℚ
deriving DecidableEq, Repr

/-- The regime selector string of `calculate_tax`. -/
inductive Regime where
  | old : Regime
  | new : Regime
deriving DecidableEq, Repr

/-- The module-level NEW_REGIME_SLABS constant (line 48); `none` models
float(inf).  `calculate_tax` never reads it: its new-regime branch
hardcodes different brackets. -/
def NEW_REGIME_SLABS : List (Option ℚ × ℚ) :=
  [(some 400000, 0), (some 800000, 0.05), (some 1200000, 0.10),
   (some 1600000, 0.15), (some 2000000, 0.20), (some 2400000, 0.25),
   (none, 0.30)]

/-- src/app.py `calculate_tax(income_details, deductions, regime)`:
total income, total deductions, standard deduction, slab tax and 4%
cess, with the old- and new-regime brackets hardcoded in the function
body. -/
def calculate_tax (income_details : IncomeDetails) (deductions : Deductions)
    (regime : Regime) : ℚ :=
  let total_income := income_details.basic_salary + income_details.hra +
    income_details.special_allowance + income_details.bonus
  let total_deductions := deductions.section_80c + deductions.section_80d +
    deductions.home_loan_interest + deductions.rent_paid
  let standard_deduction : ℚ := if regime = Regime.old then 50000 else 75000
  let taxable_income : ℚ :=
    if regime = Regime.old then max 0 (total_income - total_deductions - standard_deduction)
    else max 0 (total_income - standard_deduction)
  let tax : ℚ :=
    if regime = Regime.old then
      if taxable_income ≤ 250000 then 0
      else if taxable_income ≤ 500000 then 0.05 * (taxable_income - 250000)
      else if taxable_income ≤ 1000000 then 12500 + 0.20 * (taxable_income - 500000)
      else 112500 + 0.30 * (taxable_income - 1000000)
    else
      if taxable_income ≤ 300000 then 0
      else if taxable_income ≤ 600000 then 0.05 * (taxable_income - 300000)
      else if taxable_income ≤ 900000 then 15000 + 0.10 * (taxable_income - 600000)
      else if taxable_income ≤ 1200000 then 45000 + 0.15 * (taxable_income - 900000)
      else if taxable_income ≤ 1500000 then 90000 + 0.20 * (taxable_income - 1200000)
      else 150000 + 0.30 * (taxable_income - 1500000)
  tax * 1.04

/-- The new-regime step-by-step breakdown shown by `main` (lines 463-495):
taxable income is total income minus the 75000 standard deduction,
floored at 0; if it is non-positive no tax is shown (modelled as 0);
otherwise the NEW_REGIME_SLABS brackets are applied and the 4% cess is
added to give the displayed "Total Tax". -/
def uiNewRegimeBreakdownTotal (total_income : ℚ) : ℚ :=
  let taxable_income := max 0 (total_income - 75000)
  if taxable_income ≤ 0 then 0
  else
    let tax : ℚ :=
      if taxable_income ≤ 400000 then 0
      else if taxable_income ≤ 800000 then 0.05 * (taxable_income - 400000)
      else if taxable_income ≤ 1200000 then 20000 + 0.10 * (taxable_income - 800000)
      else if taxable_income ≤ 1600000 then 60000 + 0.15 * (taxable_income - 1200000)
      else if taxable_income ≤ 2000000 then 120000 + 0.20 * (taxable_income - 1600000)
      else if taxable_income ≤ 2400000 then 200000 + 0.25 * (taxable_income - 2000000)
      else 300000 + 0.30 * (taxable_income - 2400000)
    tax + tax * 0.04

/-- The mutable session state read and written by
`get_perplexity_response`: the timestamp of the last successful API call
and the advice cache.  Cache entries are keyed by a deterministic
function of the prompt (hashlib.md5(prompt).hexdigest() in the source,
modelled by the prompt itself since only key equality matters) and hold
the cached content with its timestamp. -/
structure AdviceState where
  last_api_call_time : Option ℚ
  ai_advice_cache : List (String × String × ℚ)
deriving DecidableEq, Repr

/-- Outcome of one attempted HTTP call to the external service.
`failure` covers both exception handlers of the source (RequestException
and the generic handler): both return an apology string and leave the
session state untouched, which is all the theorems below depend on. -/
inductive ApiOutcome where
  | success : String → ApiOutcome
  | failure : ApiOutcome
deriving DecidableEq, Repr

/-- Result of one `get_perplexity_response` call: the returned string, the
session state afterwards, and whether the external service was
contacted. -/
structure AdviceResult where
  reply : String
  state : AdviceState
  called : Bool
deriving DecidableEq, Repr

/-- Look a key up in the cache (Python dict membership plus indexing). -/
def cacheLookup (cache : List (String × String × ℚ)) (key : String) :
    Option (String × ℚ) :=
  (cache.find? fun e => e.1 == key).map fun e => e.2

/-- Python dict assignment cache[key] = entry. -/
def cacheInsert (cache : List (String × String × ℚ)) (key : String)
    (entry : String × ℚ) : List (String × String × ℚ) :=
  (key, entry) :: cache.filter fun e => e.1 != key

/-- The rate-limiting check (lines 125-131): true when a last successful
call time is recorded and fewer than 60 seconds have elapsed since. -/
def rateLimited (st : AdviceState) (t0 : ℚ) : Bool :=
  match st.last_api_call_time with
  | some last => decide (t0 - last < 60)
  | none => false

/-- The HTTP call and its aftermath (lines 165-192): on success, record
`t0` as the time of the last successful call, cache the response under
the prompt's key with timestamp `t0`, evict entries older than one hour
(using the fresh clock reading `t2`), and return the content; on a
request error, return the error message and leave the session state
untouched.  Either way the external service was contacted. -/
def apiCall (prompt : String) (t0 t2 : ℚ) (outcome : ApiOutcome)
    (st : AdviceState) : AdviceResult :=
  match outcome with
  | ApiOutcome.success content =>
    { reply := content,
      state :=
        { last_api_call_time := some t0,
          ai_advice_cache :=
            (cacheInsert st.ai_advice_cache prompt (content, t0)).filter
              fun e => decide (t2 - e.2.2 < 3600) },
      called := true }
  | ApiOutcome.failure =>
    { reply := "Unable to get AI advice at this time. Please try again later.",
      state := st, called := true }

/-- src/app.py `get_perplexity_response(prompt)` as a pure transition
function.  `hasKey` is whether PERPLEXITY_API_KEY is set; `t0`, `t1` and
`t2` are the three successive time.time() readings the body takes (entry
/ rate check, cache-freshness check, cache eviction); `outcome` is what
the HTTP call would return if it were made; `st` is the session state.
The checks happen in source order: missing key, then the 60-second rate
limit against the last successful call, then the cache, then the actual
call; only a successful call updates `last_api_call_time` and the
cache. -/
def get_perplexity_response (hasKey : Bool) (prompt : String) (t0 t1 t2 : ℚ)
    (outcome : ApiOutcome) (st : AdviceState) : AdviceResult :=
  if !hasKey then
    { reply := "API key not configured. Please contact support.", state := st,
      called := false }
  else if rateLimited st t0 then
    { reply := "Rate limit exceeded. Please try again later.", state := st,
      called := false }
  else
    match cacheLookup st.ai_advice_cache prompt with
    | some entry =>
      if t1 - entry.2 < 3600 then { reply := entry.1, state := st, called := false }
      else apiCall prompt t0 t2 outcome st
    | none => apiCall prompt t0 t2 outcome st

/-- Every field of the record is nonnegative (spec §3 invariant). -/
def NonnegRecord (d : ExtractedRecord) : Prop :=
  0 ≤ d.basic_salary ∧ 0 ≤ d.hra ∧ 0 ≤ d.special_allowance ∧ 0 ≤ d.bonus ∧
  0 ≤ d.section_80c ∧ 0 ≤ d.section_80d ∧ 0 ≤ d.home_loan_interest ∧
  0 ≤ d.rent_paid ∧ 0 ≤ d.gross_salary ∧ 0 ≤ d.net_salary ∧ 0 ≤ d.tax_deducted

/-- Every character class of the regex is invariant under lower-casing its
argument.  This is the shape re.IGNORECASE gives the compiled patterns:
literal letters match both cases and every other construct is blind to
case. -/
def LowerInv : RE → Prop
  | RE.eps => True
  | RE.cls p => ∀ c, p (Char.toLower c) = p c
  | RE.cat a b => LowerInv a ∧ LowerInv b
  | RE.alt a b => LowerInv a ∧ LowerInv b
  | RE.opt a => LowerInv a
  | RE.starG p => ∀ c, p (Char.toLower c) = p c
  | RE.starL p => ∀ c, p (Char.toLower c) = p c
  | RE.group a => LowerInv a

/-! ## Helper lemmas -/

theorem char_toNat_ofNat_valid {n : Nat} (h : n.isValidChar) :
    (Char.ofNat n).toNat = n := by
  rw [Char.ofNat, dif_pos h]
  rfl

theorem char_eq_iff_toNat {c d : Char} : c = d ↔ c.toNat = d.toNat := by
  constructor
  · intro h; rw [h]
  · intro h; exact Char.ext (UInt32.toNat.inj h)

theorem char_toNat_toLower (c : Char) :
    (Char.toLower c).toNat =
      if 65 ≤ c.toNat ∧ c.toNat ≤ 90 then c.toNat + 32 else c.toNat := by
  unfold Char.toLower
  by_cases h : 65 ≤ c.toNat ∧ c.toNat ≤ 90
  · rw [if_pos h, if_pos h]
    exact char_toNat_ofNat_valid (Or.inl (by omega))
  · rw [if_neg h, if_neg h]

theorem char_beq_iff_toNat {c d : Char} : (c == d) = decide (c.toNat = d.toNat) := by
  rw [Bool.eq_iff_iff, beq_iff_eq, decide_eq_true_eq]
  exact char_eq_iff_toNat

theorem toLower_toLower (c : Char) :
    Char.toLower (Char.toLower c) = Char.toLower c := by
  rw [char_eq_iff_toNat, char_toNat_toLower, char_toNat_toLower]
  split_ifs <;> omega

theorem char_isDigit_eq (c : Char) :
    c.isDigit = decide (48 ≤ c.toNat ∧ c.toNat ≤ 57) := by
  rw [Bool.eq_iff_iff]
  simp only [Char.isDigit, Bool.and_eq_true, decide_eq_true_eq]
  constructor
  · intro ⟨h1, h2⟩
    exact ⟨UInt32.le_def.mp h1, UInt32.le_def.mp h2⟩
  · intro ⟨h1, h2⟩
    exact ⟨UInt32.le_def.mpr h1, UInt32.le_def.mpr h2⟩

theorem isDigit_toLower (c : Char) : (Char.toLower c).isDigit = c.isDigit := by
  rw [char_isDigit_eq, char_isDigit_eq, decide_eq_decide, char_toNat_toLower]
  by_cases h : 65 ≤ c.toNat ∧ c.toNat ≤ 90
  · rw [if_pos h]; omega
  · rw [if_neg h]

theorem toLower_eq_self_of_isDigit {c : Char} (h : c.isDigit = true) :
    Char.toLower c = c := by
  rw [char_isDigit_eq, decide_eq_true_eq] at h
  rw [char_eq_iff_toNat, char_toNat_toLower, if_neg (by omega)]

theorem beq_toLower_of_nonletter {d : Char}
    (hd : ¬(65 ≤ d.toNat ∧ d.toNat ≤ 90) ∧ ¬(97 ≤ d.toNat ∧ d.toNat ≤ 122))
    (c : Char) : (Char.toLower c == d) = (c == d) := by
  rw [char_beq_iff_toNat, char_beq_iff_toNat, decide_eq_decide, char_toNat_toLower]
  by_cases h : 65 ≤ c.toNat ∧ c.toNat ≤ 90
  · rw [if_pos h]; omega
  · rw [if_neg h]

theorem lowerInv_ciChar (c : Char) : LowerInv (ciChar c) := by
  simp only [ciChar, LowerInv]
  intro x
  rw [toLower_toLower]

theorem lowerInv_chars (l : List Char) :
    LowerInv (l.foldr (fun c r => RE.cat (ciChar c) r) RE.eps) := by
  induction l with
  | nil => trivial
  | cons c cs ih => exact ⟨lowerInv_ciChar c, ih⟩

theorem lowerInv_kwRE (kw : String) : LowerInv (kwRE kw) := lowerInv_chars kw.toList

theorem lowerInv_digitCls : ∀ c, digitCls (Char.toLower c) = digitCls c :=
  isDigit_toLower

theorem lowerInv_spaceCls : ∀ c, spaceCls (Char.toLower c) = spaceCls c := by
  intro c
  unfold spaceCls
  rw [beq_toLower_of_nonletter (by decide), beq_toLower_of_nonletter (by decide),
    beq_toLower_of_nonletter (by decide), beq_toLower_of_nonletter (by decide),
    beq_toLower_of_nonletter (by decide), beq_toLower_of_nonletter (by decide)]

theorem lowerInv_anyCls : ∀ c, anyCls (Char.toLower c) = anyCls c := by
  intro c
  show (!(Char.toLower c == '\n')) = (!(c == '\n'))
  rw [beq_toLower_of_nonletter (by decide)]

theorem lowerInv_numGroup : LowerInv numGroup := by
  refine ⟨isDigit_toLower, ?_, ?_, isDigit_toLower⟩
  · intro c
    show ((Char.toLower c).isDigit || (Char.toLower c == ',')) = (c.isDigit || (c == ','))
    rw [isDigit_toLower, beq_toLower_of_nonletter (by decide)]
  · intro c
    show (Char.toLower c == '.') = (c == '.')
    rw [beq_toLower_of_nonletter (by decide)]

theorem lowerInv_currencyRE : LowerInv currencyRE := by
  refine ⟨⟨lowerInv_ciChar 'R', lowerInv_ciChar 's', fun c => ?_⟩, fun c => ?_⟩
  · show (Char.toLower c == '.') = (c == '.')
    rw [beq_toLower_of_nonletter (by decide)]
  · show (Char.toLower c == '₹') = (c == '₹')
    rw [beq_toLower_of_nonletter (by decide)]

theorem lowerInv_pattern1 (kw : String) : LowerInv (pattern1 kw) :=
  ⟨lowerInv_kwRE kw,
   fun c => by
     show (!(Char.toLower c).isDigit) = (!c.isDigit)
     rw [isDigit_toLower],
   lowerInv_numGroup⟩

theorem lowerInv_pattern2 (kw : String) : LowerInv (pattern2 kw) :=
  ⟨lowerInv_kwRE kw, lowerInv_anyCls, lowerInv_numGroup⟩

theorem lowerInv_pattern3 (kw : String) : LowerInv (pattern3 kw) :=
  ⟨lowerInv_kwRE kw, lowerInv_anyCls, lowerInv_currencyRE, lowerInv_spaceCls,
   lowerInv_numGroup⟩

theorem lowerInv_pattern4 (kw : String) : LowerInv (pattern4 kw) :=
  ⟨lowerInv_currencyRE, lowerInv_spaceCls, lowerInv_numGroup, lowerInv_anyCls,
   lowerInv_kwRE kw⟩

theorem lowerInv_patternsFor {kw : String} {p : RE} (hp : p ∈ patternsFor kw) :
    LowerInv p := by
  simp only [patternsFor, List.mem_cons, List.not_mem_nil, or_false] at hp
  rcases hp with rfl | rfl | rfl | rfl
  · exact lowerInv_pattern1 kw
  · exact lowerInv_pattern2 kw
  · exact lowerInv_pattern3 kw
  · exact lowerInv_pattern4 kw

theorem findSomeAppend (f : α → Option β) (l₁ l₂ : List α) :
    (l₁ ++ l₂).findSome? f =
      match l₁.findSome? f with
      | some v => some v
      | none => l₂.findSome? f := by
  induction l₁ with
  | nil => simp
  | cons a l ih =>
    simp only [List.cons_append, List.findSome?_cons]
    cases f a <;> simp [ih]

theorem tryPatterns_eq_findSome (t : List Char) (ps : List RE) :
    tryPatterns t ps = ps.findSome? (candidateValue t) := by
  induction ps with
  | nil => rfl
  | cons p ps ih =>
    simp only [tryPatterns, List.findSome?_cons, candidateValue]
    cases hs : reSearch p t with
    | none => simpa using ih
    | some c =>
      simp only [Option.bind_some]
      cases hp : pyFloat (stripCommas c) <;> simp [hp, ih]

theorem extractFieldAux_eq_findSome (t : List Char) (kws : List String) :
    extractFieldAux t kws = ((kws.map patternsFor).flatten).findSome? (candidateValue t) := by
  induction kws with
  | nil => rfl
  | cons kw kws ih =>
    simp only [extractFieldAux, List.map_cons, List.flatten_cons, findSomeAppend,
      tryPatterns_eq_findSome, ih]
    cases List.findSome? (candidateValue t) (patternsFor kw) <;> rfl

theorem findSome_map_map {α β γ δ : Type} (m : α → β) (mo : γ → δ)
    (f : β → Option δ) (g : α → Option γ) (l : List α)
    (h : ∀ a, f (m a) = (g a).map mo) :
    (l.map m).findSome? f = (l.findSome? g).map mo := by
  induction l with
  | nil => rfl
  | cons a l ih =>
    simp only [List.map_cons, List.findSome?_cons, h a]
    cases g a <;> simp [ih]

theorem greedyRests_map_lower {p : Char → Bool}
    (hp : ∀ c, p (Char.toLower c) = p c) (s : List Char) :
    greedyRests p (s.map Char.toLower) =
      (greedyRests p s).map (List.map Char.toLower) := by
  unfold greedyRests
  rw [List.takeWhile_map, show (p ∘ Char.toLower) = p from funext hp,
    List.length_map, List.map_map]
  exact List.map_congr_left fun i _ => (List.map_drop _ _ _).symm

theorem lazyRests_map_lower {p : Char → Bool}
    (hp : ∀ c, p (Char.toLower c) = p c) (s : List Char) :
    lazyRests p (s.map Char.toLower) =
      (lazyRests p s).map (List.map Char.toLower) := by
  unfold lazyRests
  rw [List.takeWhile_map, show (p ∘ Char.toLower) = p from funext hp,
    List.length_map, List.map_map]
  exact List.map_congr_left fun i _ => (List.map_drop _ _ _).symm

/-- Lower-casing the input commutes with matching, for a regex all of
whose character classes are case-blind: the match on the lowered input
succeeds exactly when the match on the original input does, with the
lowered capture. -/
theorem reMatch_lower : ∀ (r : RE), LowerInv r →
    ∀ (s : List Char) (cap : Option (List Char))
      (k k' : List Char → Option (List Char) → Option (List Char)),
      (∀ s1 cap1,
        k' (s1.map Char.toLower) (cap1.map (List.map Char.toLower)) =
          (k s1 cap1).map (List.map Char.toLower)) →
      reMatch r (s.map Char.toLower) (cap.map (List.map Char.toLower)) k' =
        (reMatch r s cap k).map (List.map Char.toLower) := by
  intro r
  induction r with
  | eps =>
    intro _ s cap k k' hk
    exact hk s cap
  | cls p =>
    intro hr s cap k k' hk
    cases s with
    | nil => rfl
    | cons c cs =>
      simp only [List.map_cons, reMatch]
      rw [hr c]
      cases hpc : p c with
      | true => simpa using hk cs cap
      | false => rfl
  | cat a b iha ihb =>
    intro hr s cap k k' hk
    simp only [reMatch]
    exact iha hr.1 s cap _ _ fun s1 cap1 => ihb hr.2 s1 cap1 k k' hk
  | alt a b iha ihb =>
    intro hr s cap k k' hk
    simp only [reMatch]
    rw [iha hr.1 s cap k k' hk]
    cases reMatch a s cap k with
    | some r => rfl
    | none => exact ihb hr.2 s cap k k' hk
  | opt a iha =>
    intro hr s cap k k' hk
    simp only [reMatch]
    rw [iha hr s cap k k' hk]
    cases reMatch a s cap k with
    | some r => rfl
    | none => exact hk s cap
  | starG p =>
    intro hr s cap k k' hk
    simp only [reMatch]
    rw [greedyRests_map_lower hr]
    exact findSome_map_map _ _ _ _ _ fun s1 => hk s1 cap
  | starL p =>
    intro hr s cap k k' hk
    simp only [reMatch]
    rw [lazyRests_map_lower hr]
    exact findSome_map_map _ _ _ _ _ fun s1 => hk s1 cap
  | group a iha =>
    intro hr s cap k k' hk
    simp only [reMatch]
    apply iha hr
    intro s1 cap1
    rw [List.length_map, List.length_map, ← List.map_take]
    exact hk s1 (some (s.take (s.length - s1.length)))

theorem allSuffixes_map_lower (s : List Char) :
    allSuffixes (s.map Char.toLower) = (allSuffixes s).map (List.map Char.toLower) := by
  induction s with
  | nil => rfl
  | cons c cs ih => simp only [List.map_cons, allSuffixes, ih, List.map_map]

/-- Lower-casing the text commutes with `re.search` for the
case-insensitively compiled patterns: the capture on the lowered text is
the lowered capture, in particular search succeeds on one iff it
succeeds on the other. -/
theorem reSearch_lower {r : RE} (hr : LowerInv r) (s : List Char) :
    reSearch r (s.map Char.toLower) = (reSearch r s).map (List.map Char.toLower) := by
  unfold reSearch
  rw [allSuffixes_map_lower]
  apply findSome_map_map
  intro t
  exact reMatch_lower r hr t none _ _ fun s1 cap1 => by cases cap1 <;> rfl

theorem stripCommas_lower (l : List Char) :
    stripCommas (l.map Char.toLower) = (stripCommas l).map Char.toLower := by
  unfold stripCommas
  rw [List.filter_map,
    show ((fun c => c != ',') ∘ Char.toLower) = fun c => c != ',' from
      funext fun c => by
        show (!(Char.toLower c == ',')) = (!(c == ','))
        rw [beq_toLower_of_nonletter (by decide)]]

theorem map_lower_of_all_digits {l : List Char} (h : ∀ x ∈ l, x.isDigit = true) :
    l.map Char.toLower = l :=
  (List.map_congr_left fun a ha => toLower_eq_self_of_isDigit (h a ha)).trans
    (List.map_id l)

theorem pyFloatParts_lower (s : List Char) :
    pyFloatParts (s.map Char.toLower) = pyFloatParts s := by
  unfold pyFloatParts
  rw [List.span_eq_take_drop, List.span_eq_take_drop, List.takeWhile_map,
    List.dropWhile_map,
    show ((fun c => c.isDigit) ∘ Char.toLower) = fun c => c.isDigit from
      funext isDigit_toLower,
    map_lower_of_all_digits fun x hx => List.mem_takeWhile_imp hx]
  cases hD : s.dropWhile (fun c => c.isDigit) with
  | nil => rfl
  | cons c frac =>
    simp only [List.map_cons]
    rw [beq_toLower_of_nonletter (by decide), List.all_map,
      show ((fun d => d.isDigit) ∘ Char.toLower) = fun d => d.isDigit from
        funext isDigit_toLower,
      show (frac.map Char.toLower).isEmpty = frac.isEmpty from by cases frac <;> rfl,
      List.length_map]
    by_cases h : ((c == '.') && frac.all (fun d => d.isDigit) &&
        !((s.takeWhile fun c => c.isDigit).isEmpty && frac.isEmpty)) = true
    · rw [if_pos h, if_pos h]
      have hall : ∀ x ∈ frac, x.isDigit = true := by
        have h2 := h
        simp only [Bool.and_eq_true] at h2
        exact List.all_eq_true.mp h2.1.2
      rw [map_lower_of_all_digits hall]
    · rw [if_neg h, if_neg h]

theorem pyFloat_lower (s : List Char) :
    pyFloat (s.map Char.toLower) = pyFloat s := by
  unfold pyFloat
  rw [pyFloatParts_lower]

theorem candidateValue_lower {p : RE} (hp : LowerInv p) (t : List Char) :
    candidateValue (t.map Char.toLower) p = candidateValue t p := by
  unfold candidateValue
  rw [reSearch_lower hp]
  cases reSearch p t with
  | none => rfl
  | some c =>
    show (pyFloat (stripCommas (c.map Char.toLower)) : Option ℚ) =
      pyFloat (stripCommas c)
    rw [stripCommas_lower, pyFloat_lower]

theorem findSome_congr {α β : Type} {l : List α} {f g : α → Option β}
    (h : ∀ a ∈ l, f a = g a) : l.findSome? f = l.findSome? g := by
  induction l with
  | nil => rfl
  | cons a l ih =>
    simp only [List.findSome?_cons, h a (List.mem_cons_self a l)]
    cases g a with
    | some v => rfl
    | none => exact ih fun a ha => h a (List.mem_cons_of_mem _ ha)

theorem tryPatterns_some {t : List Char} {ps : List RE} {v : ℚ}
    (h : tryPatterns t ps = some v) :
    ∃ p ∈ ps, ∃ c, reSearch p t = some c ∧ pyFloat (stripCommas c) = some v := by
  induction ps with
  | nil => simp [tryPatterns] at h
  | cons p ps ih =>
    unfold tryPatterns at h
    cases hs : reSearch p t with
    | none =>
      simp only [hs] at h
      obtain ⟨q, hq, rest⟩ := ih h
      exact ⟨q, List.mem_cons_of_mem _ hq, rest⟩
    | some c =>
      simp only [hs] at h
      cases hp : pyFloat (stripCommas c) with
      | none =>
        simp only [hp] at h
        obtain ⟨q, hq, rest⟩ := ih h
        exact ⟨q, List.mem_cons_of_mem _ hq, rest⟩
      | some w =>
        simp only [hp] at h
        exact ⟨p, List.mem_cons_self _ _, c, hs, by rw [hp, h]⟩

theorem extractFieldAux_some {t : List Char} {kws : List String} {v : ℚ}
    (h : extractFieldAux t kws = some v) :
    ∃ kw ∈ kws, ∃ p ∈ patternsFor kw, ∃ c,
      reSearch p t = some c ∧ pyFloat (stripCommas c) = some v := by
  induction kws with
  | nil => simp [extractFieldAux] at h
  | cons kw kws ih =>
    unfold extractFieldAux at h
    cases htry : tryPatterns t (patternsFor kw) with
    | none =>
      simp only [htry] at h
      obtain ⟨kw2, hkw2, rest⟩ := ih h
      exact ⟨kw2, List.mem_cons_of_mem _ hkw2, rest⟩
    | some w =>
      simp only [htry] at h
      exact ⟨kw, List.mem_cons_self _ _, h ▸ tryPatterns_some htry⟩

theorem pyFloat_nonneg {s : List Char} {v : ℚ} (h : pyFloat s = some v) : 0 ≤ v := by
  unfold pyFloat at h
  cases hp : pyFloatParts s with
  | none => rw [hp] at h; exact absurd h (by simp)
  | some p =>
    rw [hp] at h
    simp only [Option.map] at h
    rw [← Option.some.inj h]
    exact Rat.mkRat_nonneg (Int.natCast_nonneg _) _

theorem tryPatterns_nonneg {t : List Char} {ps : List RE} {v : ℚ}
    (h : tryPatterns t ps = some v) : 0 ≤ v := by
  induction ps with
  | nil => exact absurd h (by simp [tryPatterns])
  | cons p ps ih =>
    unfold tryPatterns at h
    split at h
    · exact ih h
    · split at h
      · exact pyFloat_nonneg (by rw [← Option.some.inj h]; assumption)
      · exact ih h

theorem extractFieldAux_nonneg {t : List Char} {kws : List String} {v : ℚ}
    (h : extractFieldAux t kws = some v) : 0 ≤ v := by
  induction kws with
  | nil => exact absurd h (by simp [extractFieldAux])
  | cons kw kws ih =>
    unfold extractFieldAux at h
    split at h
    · exact tryPatterns_nonneg (by rw [← Option.some.inj h]; assumption)
    · exact ih h

theorem extract_field_nonneg (text : String) (kws : List String) :
    0 ≤ extract_field text kws 0 := by
  unfold extract_field
  cases h : extractFieldAux text.toList kws with
  | none => simp
  | some v => simpa using extractFieldAux_nonneg h

theorem basicExtraction_nonneg (t : String) : NonnegRecord (basicExtraction t) :=
  ⟨extract_field_nonneg t _, extract_field_nonneg t _, extract_field_nonneg t _,
   extract_field_nonneg t _, extract_field_nonneg t _, extract_field_nonneg t _,
   extract_field_nonneg t _, extract_field_nonneg t _, extract_field_nonneg t _,
   extract_field_nonneg t _, extract_field_nonneg t _⟩

theorem fallbackBasic_nonneg {d : ExtractedRecord} (h : NonnegRecord d) :
    NonnegRecord (fallbackBasic d) := by
  obtain ⟨h1, h2, h3, h4, h5, h6, h7, h8, h9, h10, h11⟩ := h
  unfold fallbackBasic
  split
  case isTrue hc =>
    exact ⟨mul_nonneg (le_of_lt hc.1) (by norm_num), h2, h3, h4, h5, h6, h7, h8, h9, h10, h11⟩
  case isFalse =>
    exact ⟨h1, h2, h3, h4, h5, h6, h7, h8, h9, h10, h11⟩

theorem fallbackHra_nonneg {d : ExtractedRecord} (h : NonnegRecord d) :
    NonnegRecord (fallbackHra d) := by
  obtain ⟨h1, h2, h3, h4, h5, h6, h7, h8, h9, h10, h11⟩ := h
  unfold fallbackHra
  split
  case isTrue hc =>
    exact ⟨h1, mul_nonneg (le_of_lt hc.2) (by norm_num), h3, h4, h5, h6, h7, h8, h9, h10, h11⟩
  case isFalse =>
    exact ⟨h1, h2, h3, h4, h5, h6, h7, h8, h9, h10, h11⟩

theorem fallbackSpecial_nonneg {d : ExtractedRecord} (h : NonnegRecord d) :
    NonnegRecord (fallbackSpecial d) := by
  obtain ⟨h1, h2, h3, h4, h5, h6, h7, h8, h9, h10, h11⟩ := h
  unfold fallbackSpecial
  split
  case isTrue => exact ⟨h1, h2, le_max_left 0 _, h4, h5, h6, h7, h8, h9, h10, h11⟩
  case isFalse =>
    exact ⟨h1, h2, h3, h4, h5, h6, h7, h8, h9, h10, h11⟩

/-! ## Claim theorems -/

/-- C2.  First conjunct: `extract_field` returns the value of the first
(keyword, pattern) pair, in keyword list order, then pattern priority
order 1-4 per keyword, whose search yields a capture that parses as a
number; once a capture parses, no further keyword or pattern is
consulted, and if no combination produces a parsable capture the
supplied default is returned (`firstMatchSpec` is the spec's description
of this search).  Second conjunct: matching is case-insensitive — the
patterns are compiled from case-blind character classes, as under
re.IGNORECASE, so extraction from a lower-cased copy of the text returns
exactly what extraction from the original text returns. -/
theorem extract_field_first_match_wins :
    (∀ (text : String) (kws : List String) (d : ℚ),
        extract_field text kws d = firstMatchSpec text kws d) ∧
    (∀ (text2 text : String) (kws : List String) (d : ℚ),
        text2.toList = text.toList.map Char.toLower →
        extract_field text2 kws d = extract_field text kws d) := by
  constructor
  · intro text kws d
    unfold extract_field firstMatchSpec
    rw [extractFieldAux_eq_findSome]
  · intro text2 text kws d hlow
    unfold extract_field
    rw [extractFieldAux_eq_findSome, extractFieldAux_eq_findSome, hlow]
    refine congrArg (fun o => Option.getD o d) (findSome_congr fun p hp => ?_)
    refine candidateValue_lower ?_ text.toList
    obtain ⟨ps, hps, hpps⟩ := List.mem_flatten.mp hp
    obtain ⟨kw, _, rfl⟩ := List.mem_map.mp hps
    exact lowerInv_patternsFor hpps

/-- C2 witness: extracting "Basic Salary" from the all-lower-case text
"basic salary: 1000" returns the same value as from
"Basic Salary: 1000" (namely 1000, by the first conjunct both equal
their first-match value). -/
theorem extract_field_first_match_wins_witness :
    "basic salary: 1000".toList = "Basic Salary: 1000".toList.map Char.toLower ∧
    extract_field "basic salary: 1000" ["Basic Salary"] 0 =
      extract_field "Basic Salary: 1000" ["Basic Salary"] 0 :=
  ⟨by decide, extract_field_first_match_wins.2 _ _ _ _ (by decide)⟩

/-- C7.  Every field of the record returned by `process_document_text` is
nonnegative: extracted values parse from digit-led captures, defaults are
0, and each fallback assigns a product of nonnegative values or a max
with 0. -/
theorem resolver_record_nonneg (t : String) : NonnegRecord (process_document_text t) :=
  fallbackSpecial_nonneg (fallbackHra_nonneg (fallbackBasic_nonneg (basicExtraction_nonneg t)))

/-- C1.  When extraction yields gross_salary = 1000000 and every other
field 0, the three fallback rules fire in order on the current record:
rule 1 sets basic_salary to 0.5 * 1000000 = 500000, rule 2 then sets hra
to 0.4 * 500000 = 200000, and rule 3 then sets special_allowance to
max 0 (1000000 - 500000 - 200000) = 300000, which is what
`process_document_text` returns. -/
theorem fallback_chain_from_gross (t : String)
    (h : basicExtraction t =
      { basic_salary := 0, hra := 0, special_allowance := 0, bonus := 0,
        section_80c := 0, section_80d := 0, home_loan_interest := 0,
        rent_paid := 0, gross_salary := 1000000, net_salary := 0, tax_deducted := 0 }) :
    fallbackBasic (basicExtraction t) =
      { basic_salary := 500000, hra := 0, special_allowance := 0, bonus := 0,
        section_80c := 0, section_80d := 0, home_loan_interest := 0,
        rent_paid := 0, gross_salary := 1000000, net_salary := 0, tax_deducted := 0 } ∧
    fallbackHra (fallbackBasic (basicExtraction t)) =
      { basic_salary := 500000, hra := 200000, special_allowance := 0, bonus := 0,
        section_80c := 0, section_80d := 0, home_loan_interest := 0,
        rent_paid := 0, gross_salary := 1000000, net_salary := 0, tax_deducted := 0 } ∧
    process_document_text t =
      { basic_salary := 500000, hra := 200000, special_allowance := 300000, bonus := 0,
        section_80c := 0, section_80d := 0, home_loan_interest := 0,
        rent_paid := 0, gross_salary := 1000000, net_salary := 0, tax_deducted := 0 } := by
  have h1 : fallbackBasic (basicExtraction t) =
      { basic_salary := 500000, hra := 0, special_allowance := 0, bonus := 0,
        section_80c := 0, section_80d := 0, home_loan_interest := 0,
        rent_paid := 0, gross_salary := 1000000, net_salary := 0, tax_deducted := 0 } := by
    rw [h]
    unfold fallbackBasic
    rw [if_pos (by norm_num)]
    simp only [ExtractedRecord.mk.injEq]
    norm_num
  have h2 : fallbackHra (fallbackBasic (basicExtraction t)) =
      { basic_salary := 500000, hra := 200000, special_allowance := 0, bonus := 0,
        section_80c := 0, section_80d := 0, home_loan_interest := 0,
        rent_paid := 0, gross_salary := 1000000, net_salary := 0, tax_deducted := 0 } := by
    rw [h1]
    unfold fallbackHra
    rw [if_pos (by norm_num)]
    simp only [ExtractedRecord.mk.injEq]
    norm_num
  refine ⟨h1, h2, ?_⟩
  unfold process_document_text
  rw [h2]
  unfold fallbackSpecial
  rw [if_pos (by norm_num)]
  simp only [ExtractedRecord.mk.injEq]
  norm_num

/-- C3 counterexample.  Not every text containing the substring
"Basic Salary: ₹12,345.67" extracts 12345.67 for basic_salary: an
earlier occurrence of the keyword with a different nearby number wins,
because the search takes the leftmost match of the first matching
keyword/pattern pair. -/
theorem keyword_embedding_counterexample :
    extract_field "Basic Salary 777 Basic Salary: ₹12,345.67"
      ["Basic Salary", "Basic Pay", "Basic"] 0 = 777 ∧ (777 : ℚ) ≠ 12345.67 := by
  constructor
  · decide
  · norm_num

/-- C3 amended.  For every field of the resolver's canonical keyword
table and every keyword k in its list, extracting that field from the
text "k: ₹12,345.67" itself returns 12345.67: the thousands comma in the
capture is stripped before parsing. -/
theorem keyword_embedding_exact_text :
    ∀ ks ∈ fieldKeywordTable, ∀ kw ∈ ks,
      extract_field (kw ++ ": ₹12,345.67") ks 0 = 12345.67 := by
  rw [show (12345.67 : ℚ) = mkRat 1234567 100 by
    rw [Rat.mkRat_eq_divInt, Rat.divInt_eq_div]; norm_num]
  decide

/-- C4 counterexample.  The fourth match strategy does not require the
currency marker: in "600000 HRA" the only number precedes its keyword
with no marker, strategies 1-3 fail, and extraction returns 600000, not
the default 7. -/
theorem pattern4_bare_number_counterexample :
    extract_field "600000 HRA" ["HRA"] 7 = 600000 ∧ (600000 : ℚ) ≠ 7 := by
  constructor
  · decide
  · norm_num

/-- C4 amended.  The fourth match strategy matches a number appearing
before the keyword whether or not it carries a currency marker (the
marker is optional in the pattern): for any default, both "600000 HRA"
and "Rs. 600000 HRA" extract 600000. -/
theorem pattern4_accepts_bare_number :
    (∀ d : ℚ, extract_field "600000 HRA" ["HRA"] d = 600000) ∧
    (∀ d : ℚ, extract_field "Rs. 600000 HRA" ["HRA"] d = 600000) := by
  constructor
  · intro d
    unfold extract_field
    rw [show extractFieldAux "600000 HRA".toList ["HRA"] = some 600000 from by decide]
    rfl
  · intro d
    unfold extract_field
    rw [show extractFieldAux "Rs. 600000 HRA".toList ["HRA"] = some 600000 from by decide]
    rfl

/-- C5.  `process_document_text` never infers any field other than
basic_salary, hra and special_allowance: each of the other eight fields
of the returned record equals the extractor's value for it (its default
0 when unmatched). -/
theorem resolver_frame (t : String) :
    (process_document_text t).bonus =
      extract_field t ["Bonus", "Performance Bonus", "Annual Bonus"] 0 ∧
    (process_document_text t).section_80c = extract_field t ["Section 80C", "80C"] 0 ∧
    (process_document_text t).section_80d =
      extract_field t ["Section 80D", "80D", "Health Insurance"] 0 ∧
    (process_document_text t).home_loan_interest =
      extract_field t ["Home Loan Interest", "Interest on Housing Loan"] 0 ∧
    (process_document_text t).rent_paid = extract_field t ["Rent Paid", "Rent"] 0 ∧
    (process_document_text t).gross_salary = extract_field t ["Gross Salary", "Gross"] 0 ∧
    (process_document_text t).net_salary =
      extract_field t ["Net Salary", "Take Home", "Net Pay"] 0 ∧
    (process_document_text t).tax_deducted =
      extract_field t ["TDS", "Tax Deducted", "Income Tax"] 0 := by
  refine ⟨?_, ?_, ?_, ?_, ?_, ?_, ?_, ?_⟩ <;>
    (unfold process_document_text fallbackSpecial fallbackHra fallbackBasic
     split_ifs <;> rfl)

/-- C1 witness: the text "Gross Salary: 1000000" extracts gross_salary =
1000000 and nothing else, and resolving it produces basic_salary 500000,
hra 200000 and special_allowance 300000. -/
theorem fallback_chain_from_gross_witness :
    basicExtraction "Gross Salary: 1000000" =
      { basic_salary := 0, hra := 0, special_allowance := 0, bonus := 0,
        section_80c := 0, section_80d := 0, home_loan_interest := 0,
        rent_paid := 0, gross_salary := 1000000, net_salary := 0, tax_deducted := 0 } ∧
    process_document_text "Gross Salary: 1000000" =
      { basic_salary := 500000, hra := 200000, special_allowance := 300000, bonus := 0,
        section_80c := 0, section_80d := 0, home_loan_interest := 0,
        rent_paid := 0, gross_salary := 1000000, net_salary := 0, tax_deducted := 0 } := by
  have h : basicExtraction "Gross Salary: 1000000" =
      { basic_salary := 0, hra := 0, special_allowance := 0, bonus := 0,
        section_80c := 0, section_80d := 0, home_loan_interest := 0,
        rent_paid := 0, gross_salary := 1000000, net_salary := 0, tax_deducted := 0 } := by
    decide
  exact ⟨h, (fallback_chain_from_gross _ h).2.2⟩

/-- C3 witness: the hra keyword list is in the canonical table, "HRA" is
one of its keywords, and extracting hra from "HRA: ₹12,345.67" returns
12345.67. -/
theorem keyword_embedding_exact_text_witness :
    ["HRA", "House Rent Allowance"] ∈ fieldKeywordTable ∧
    "HRA" ∈ (["HRA", "House Rent Allowance"] : List String) ∧
    extract_field ("HRA" ++ ": ₹12,345.67") ["HRA", "House Rent Allowance"] 0 = 12345.67 :=
  ⟨by decide, by decide,
   keyword_embedding_exact_text ["HRA", "House Rent Allowance"] (by decide) "HRA" (by decide)⟩

/-- C6.  The confidence score is the number of strictly positive fields
divided by the total field count, which is 11 for records produced by
the resolver; it is 0 on an empty record, and 3/11 on a record with
exactly 3 of its 11 fields nonzero. -/
theorem confidence_score_spec :
    (∀ d : ExtractedRecord,
       calculate_extraction_confidence (recordValues d) =
         (((recordValues d).countP fun v => decide (0 < v) : ℕ) : ℚ) / 11) ∧
    calculate_extraction_confidence [] = 0 ∧
    (∀ d : ExtractedRecord,
       ((recordValues d).countP fun v => decide (0 < v)) = 3 →
       calculate_extraction_confidence (recordValues d) = 3 / 11) := by
  have hmain : ∀ d : ExtractedRecord,
      calculate_extraction_confidence (recordValues d) =
        (((recordValues d).countP fun v => decide (0 < v) : ℕ) : ℚ) / 11 := by
    intro d
    unfold calculate_extraction_confidence
    have hlen : (recordValues d).length = 11 := rfl
    rw [hlen]
    norm_num
  refine ⟨hmain, rfl, fun d h => ?_⟩
  rw [hmain d, h]
  norm_num

/-- C6 witness: a record with exactly three positive fields (basic 600000,
hra 50000, section_80c 150000) scores 3/11. -/
theorem confidence_score_spec_witness :
    ((recordValues
        { basic_salary := 600000, hra := 50000, special_allowance := 0, bonus := 0,
          section_80c := 150000, section_80d := 0, home_loan_interest := 0,
          rent_paid := 0, gross_salary := 0, net_salary := 0,
          tax_deducted := 0 }).countP fun v => decide (0 < v)) = 3 ∧
    calculate_extraction_confidence (recordValues
        { basic_salary := 600000, hra := 50000, special_allowance := 0, bonus := 0,
          section_80c := 150000, section_80d := 0, home_loan_interest := 0,
          rent_paid := 0, gross_salary := 0, net_salary := 0,
          tax_deducted := 0 }) = 3 / 11 := by
  have h : ((recordValues
      { basic_salary := 600000, hra := 50000, special_allowance := 0, bonus := 0,
        section_80c := 150000, section_80d := 0, home_loan_interest := 0,
        rent_paid := 0, gross_salary := 0, net_salary := 0,
        tax_deducted := 0 }).countP fun v => decide (0 < v)) = 3 := by decide
  exact ⟨h, confidence_score_spec.2.2 _ h⟩

/-- C8.  A ParseMismatch is handled locally: a pattern whose search
succeeds but whose comma-stripped capture does not parse as a number is
skipped and the loop continues with the remaining patterns (first
conjunct); consequently `extract_field` always returns a numeric value —
either the default, or a value obtained as the parsed capture of some
keyword/pattern combination (second conjunct) — and never surfaces an
error. -/
theorem parse_mismatch_recovery :
    (∀ (t : List Char) (p : RE) (ps : List RE) (c : List Char),
       reSearch p t = some c → pyFloat (stripCommas c) = none →
       tryPatterns t (p :: ps) = tryPatterns t ps) ∧
    (∀ (text : String) (kws : List String) (d : ℚ),
       extract_field text kws d = d ∨
       ∃ kw ∈ kws, ∃ p ∈ patternsFor kw, ∃ c,
         reSearch p text.toList = some c ∧
         pyFloat (stripCommas c) = some (extract_field text kws d)) := by
  constructor
  · intro t p ps c hs hp
    conv_lhs => unfold tryPatterns
    simp only [hs, hp]
  · intro text kws d
    unfold extract_field
    cases haux : extractFieldAux text.toList kws with
    | none => exact Or.inl rfl
    | some v =>
      refine Or.inr ?_
      simp only [Option.getD_some]
      exact extractFieldAux_some haux

/-- C8 witness: a pattern that captures "x" matches the text "x", the
capture fails to parse, and the pattern loop continues as if the pattern
were absent. -/
theorem parse_mismatch_recovery_witness :
    reSearch (RE.group (RE.cls fun c => c == 'x')) "x".toList = some ['x'] ∧
    pyFloat (stripCommas ['x']) = none ∧
    tryPatterns "x".toList [RE.group (RE.cls fun c => c == 'x')] =
      tryPatterns "x".toList [] := by
  have h1 : reSearch (RE.group (RE.cls fun c => c == 'x')) "x".toList = some ['x'] := by
    decide
  have h2 : pyFloat (stripCommas ['x']) = none := by decide
  exact ⟨h1, h2, parse_mismatch_recovery.1 _ _ [] _ h1 h2⟩

/-- C9.  First conjunct: with an API key configured, a call attempted
less than 60 seconds after the last successful call is rejected locally
with the rate-limit message, the service is not contacted
(`called = false`), and the session state — in particular the cache,
which is never consulted, and the last-call timestamp — is unchanged,
whatever the cache holds.  Second conjunct: the last-call timestamp
changes only when the service is actually contacted and answers
successfully, in which case it becomes the entry time `t0` of the
call. -/
theorem rate_limit_guard :
    (∀ (prompt : String) (t0 t1 t2 : ℚ) (outcome : ApiOutcome) (st : AdviceState)
       (last : ℚ),
       st.last_api_call_time = some last → t0 - last < 60 →
       get_perplexity_response true prompt t0 t1 t2 outcome st =
         { reply := "Rate limit exceeded. Please try again later.", state := st,
           called := false }) ∧
    (∀ (hasKey : Bool) (prompt : String) (t0 t1 t2 : ℚ) (outcome : ApiOutcome)
       (st : AdviceState),
       (get_perplexity_response hasKey prompt t0 t1 t2 outcome st).state.last_api_call_time ≠
         st.last_api_call_time →
       ∃ content, outcome = ApiOutcome.success content ∧
         (get_perplexity_response hasKey prompt t0 t1 t2 outcome st).called = true ∧
         (get_perplexity_response hasKey prompt t0 t1 t2 outcome st).state.last_api_call_time =
           some t0) := by
  constructor
  · intro prompt t0 t1 t2 outcome st last hlast hlt
    have hr : rateLimited st t0 = true := by
      unfold rateLimited
      rw [hlast]
      simpa using hlt
    unfold get_perplexity_response
    simp [hr]
  · intro hasKey prompt t0 t1 t2 outcome st hne
    unfold get_perplexity_response at hne ⊢
    cases hasKey with
    | false => simp at hne
    | true =>
      cases hr : rateLimited st t0 with
      | true => simp [hr] at hne
      | false =>
        simp only [hr, Bool.not_true, Bool.false_eq_true, if_false] at hne ⊢
        cases hc : cacheLookup st.ai_advice_cache prompt with
        | some entry =>
          simp only [hc] at hne ⊢
          by_cases hf : t1 - entry.2 < 3600
          · simp [hf] at hne
          · simp only [hf, if_false] at hne ⊢
            cases outcome with
            | failure => simp [apiCall] at hne
            | success content => exact ⟨content, rfl, rfl, rfl⟩
        | none =>
          simp only [hc] at hne ⊢
          cases outcome with
          | failure => simp [apiCall] at hne
          | success content => exact ⟨content, rfl, rfl, rfl⟩

/-- C9 witness: 30 seconds after a successful call at time 100, with a
fresh cache entry for the very prompt being asked, the attempt is
rejected with the rate-limit message, the cached content is not served,
the service is not contacted, and the state is unchanged. -/
theorem rate_limit_guard_witness :
    ({ last_api_call_time := some 100,
       ai_advice_cache := [("p", "cached", 95)] } : AdviceState).last_api_call_time =
      some 100 ∧
    (130 : ℚ) - 100 < 60 ∧
    get_perplexity_response true "p" 130 130 130 (ApiOutcome.success "fresh")
      { last_api_call_time := some 100, ai_advice_cache := [("p", "cached", 95)] } =
      { reply := "Rate limit exceeded. Please try again later.",
        state := { last_api_call_time := some 100,
                   ai_advice_cache := [("p", "cached", 95)] },
        called := false } := by
  have h2 : (130 : ℚ) - 100 < 60 := by norm_num
  exact ⟨rfl, h2, rate_limit_guard.1 "p" 130 130 130 _ _ 100 rfl h2⟩

/-- C10.  The two embedded new-regime computations disagree: on total
income 475000 (taxable income 400000 after the 75000 standard
deduction), `calculate_tax`'s hardcoded new-regime brackets
(300000/600000/900000/1200000/1500000) give 5000 basic tax, 5200 with
the 4% cess, while the step-by-step breakdown the UI displays — which
follows the NEW_REGIME_SLABS thresholds
(400000/800000/1200000/1600000/2000000/2400000) — shows a total tax of
0. -/
theorem new_regime_tables_disagree :
    calculate_tax { basic_salary := 475000, hra := 0, special_allowance := 0, bonus := 0 }
      { section_80c := 0, section_80d := 0, home_loan_interest := 0, rent_paid := 0 }
      Regime.new = 5200 ∧
    uiNewRegimeBreakdownTotal 475000 = 0 ∧
    (5200 : ℚ) ≠ 0 := by
  have hreg : (Regime.new = Regime.old) = False := by simp
  refine ⟨?_, ?_, by norm_num⟩
  · unfold calculate_tax
    simp only [hreg, if_false]
    norm_num [max_def]
  · unfold uiNewRegimeBreakdownTotal
    norm_num [max_def]

end TaxApp
